import Mathlib

/-!
Verification of the beehive `bees` module (src/bees/bees.go): the worker
registry, the factory-based instantiation, the bounded-retry supervision of
worker run-loops, and the central event dispatcher.

Modelling conventions:
* Go maps with string keys become association lists with Go-map update
  semantics (`mapInsert` replaces the binding when the key is present,
  appends otherwise; registries built through `RegisterBee` have nodup keys).
* A `chan bool` stop-signal channel is identified by a generation number:
  `make(chan bool)` yields a number different from the previous one.
* A `*sync.WaitGroup` is modelled by an object generation (`wgGen`, which a
  genuinely fresh WaitGroup would change), its counter (`wgCount`), and the
  running totals of `Add(1)` and `Done()` calls (`wgAdds`, `wgDones`).
* A panic is an `Except.error`; `recover` turns it back into a value.
* A goroutine is modelled by its eventual effect: supervision
  (`go startBee(mod, 0)`) is run to completion, and the per-event chain
  goroutine is modelled by the pair (outcome escaping the goroutine, log
  lines it printed).
* Go pointer aliasing between the registry and a started worker is modelled
  by writing the mutated worker back into the registry under its name.
-/

namespace Beehive

/-- Association-list lookup with Go-map semantics (first binding wins;
registry keys are kept duplicate-free). -/
def mapLookup {α : Type} : List (String × α) → String → Option α
  | [], _ => none
  | p :: rest, k => if p.1 = k then some p.2 else mapLookup rest k

/-- Association-list update with Go-map semantics: replace the binding if the
key is present, append it otherwise. -/
def mapInsert {α : Type} : List (String × α) → String → α → List (String × α)
  | [], k, v => [(k, v)]
  | p :: rest, k, v => if p.1 = k then (k, v) :: rest else p :: mapInsert rest k v

/-- The keys of an association list. -/
def mapKeys {α : Type} (m : List (String × α)) : List String := m.map Prod.fst

/-- A chain is external to this module (src/bees/bees.go only stores and
returns the slice); its payload is opaque here. -/
abbrev Chain := String

/-- The `Bee` base struct of src/bees/bees.go:69, with the runtime resources
(`SigChan`, `waitGroup`) modelled as described in the file header and the
`time.Time` of the last logged event abstracted to a count of LogEvent calls. -/
structure Bee where
  BeeName : String
  BeeNamespace : String
  BeeDescription : String
  BeeOptions : List String
  Running : Bool
  SigChan : Nat
  wgGen : Nat
  wgCount : Int
  wgAdds : Nat
  wgDones : Nat
  lastEvent : Nat
deriving DecidableEq

/-- The `BeeInstance` descriptor of src/bees/bees.go:84. -/
structure BeeInstance where
  Name : String
  Class : String
  Description : String
  Options : List String
deriving DecidableEq

/-- The `Event` struct of src/bees/bees.go:92 (placeholder options abstracted
to strings). -/
structure Event where
  Bee : String
  Name : String
  Options : List String
deriving DecidableEq

/-- Modelled from the spec (section 6, Factory boundary): a bee factory is
known to this module only through `New(name, description, options) → Worker`;
the `BeeFactoryInterface` type itself is declared outside src/bees/bees.go. -/
structure BeeFactoryInterface where
  New : String → String → List String → Bee

/-- The package-level mutable state of src/bees/bees.go:111: the event
channel (its open/closed status), the `bees` and `factories` maps and the
`chains` slice. -/
structure BeesState where
  bees : List (String × Bee)
  factories : List (String × BeeFactoryInterface)
  chains : List Chain
  eventsOpen : Bool

/-- Modelled from the spec (section 4.1): `start()` marks the worker running;
the concrete method body is not part of src/bees/bees.go. -/
def beeStart (b : Bee) : Bee := { b with Running := true }

/-- Modelled from the spec (section 4.1 and section 8): `stop()` signals the
run-loop, after which the worker reports not running; the concrete method
body is not part of src/bees/bees.go. -/
def beeStop (b : Bee) : Bee := { b with Running := false }

/-- Modelled from the spec (section 4.1, `setStopSignal`): replace the
stop-signal channel; the argument is the generation of the new channel. -/
def beeSetSigChan (b : Bee) (c : Nat) : Bee := { b with SigChan := c }

/-- `WaitGroup().Add(1)` on the worker completion handle. The stdlib adds to
the counter first and only then panics with "sync: negative WaitGroup
counter" when the result is negative, so the returned worker always carries
the incremented counter; the second component is the panic, if one is
raised (possible only when the counter stood at -2 or below). -/
def wgAdd (b : Bee) : Bee × Option String :=
  let b1 := { b with wgCount := b.wgCount + 1, wgAdds := b.wgAdds + 1 }
  (b1, if b1.wgCount < 0 then some "sync: negative WaitGroup counter" else none)

/-- `WaitGroup().Done()` on the worker completion handle: the counter is
decremented. The stdlib panic that Done raises (after the decrement) once the
counter goes negative is not carried separately: the only Done call site is
the deferred one in `startBee`, where such a panic lands in the supervision
recover exactly like a Run panic; `runOk n = false` there covers any attempt
from which a panic (of Run, or of the deferred Done on an over-signalled
handle) reaches the recover. -/
def wgDone (b : Bee) : Bee :=
  { b with wgCount := b.wgCount - 1, wgDones := b.wgDones + 1 }

/-- Modelled from the spec (section 4.4 step 2): `LogEvent()` records the
event timestamp on the worker; the concrete method body is not part of
src/bees/bees.go. The timestamp is abstracted to a counter. -/
def beeLogEvent (b : Bee) : Bee := { b with lastEvent := b.lastEvent + 1 }

/-- `RegisterBee` (src/bees/bees.go:150): store the bee under its name. -/
def RegisterBee (s : BeesState) (bee : Bee) : BeesState :=
  { s with bees := mapInsert s.bees bee.BeeName bee }

/-- `GetBee` (src/bees/bees.go:157): lookup, `nil` on a miss becomes `none`. -/
def GetBee (s : BeesState) (identifier : String) : Option Bee :=
  mapLookup s.bees identifier

/-- `GetBees` (src/bees/bees.go:167): all registered bees. -/
def GetBees (s : BeesState) : List Bee := s.bees.map Prod.snd

/-- `GetBeeFactory` (src/bees/bees.go:177): factory lookup, `nil` becomes
`none`. -/
def GetBeeFactory (s : BeesState) (identifier : String) : Option BeeFactoryInterface :=
  mapLookup s.factories identifier

/-- `GetBeeFactories` (src/bees/bees.go:187): all registered factories. -/
def GetBeeFactories (s : BeesState) : List BeeFactoryInterface :=
  s.factories.map Prod.snd

/-- Modelled from the spec (section 4.2, `factoryLookup(classId)`): the
`GetFactory` function called by `NewBeeInstance` is declared outside
src/bees/bees.go; per the spec it is the optional factory lookup by class
identifier. -/
def GetFactory (s : BeesState) (identifier : String) : Option BeeFactoryInterface :=
  mapLookup s.factories identifier

/-- `Chains` (src/bees/bees.go:297): getter for the chains slice. -/
def Chains (s : BeesState) : List Chain := s.chains

/-- `SetChains` (src/bees/bees.go:302): setter for the chains slice. -/
def SetChains (s : BeesState) (cs : List Chain) : BeesState := { s with chains := cs }

/-- Outcome of one supervised run (`startBee`): the worker object after the
supervision task finished, and the number of times `Run` was invoked. -/
structure SuperviseResult where
  bee : Bee
  attempts : Nat
deriving DecidableEq

/-- Recursion worker for `startBee` (src/bees/bees.go:197). The Go function
recurses with `fatals+1` and stops at `fatals >= 3`; the same recursion is
realised structurally on `3 - fatals`, the number of attempts still allowed
(`0` is exactly the `fatals >= 3` abandonment branch). `runOk n` tells
whether the `Run` invocation made at fatal-count `n` returns normally
(`false` = it panics). The deferred `Done()` runs once per invocation, before
the deferred `recover` re-enters supervision. -/
def startBeeAux (runOk : Nat → Bool) : Bee → Nat → Nat → SuperviseResult
  | bee, _, 0 => ⟨bee, 0⟩
  | bee, fatals, remaining + 1 =>
    let b1 := wgDone bee
    if runOk fatals then ⟨b1, 1⟩
    else
      let r := startBeeAux runOk b1 (fatals + 1) remaining
      ⟨r.bee, r.attempts + 1⟩

/-- `startBee` (src/bees/bees.go:197): supervised run with bounded retry. -/
def startBee (runOk : Nat → Bool) (bee : Bee) (fatals : Nat) : SuperviseResult :=
  startBeeAux runOk bee fatals (3 - fatals)

/-- `NewBeeInstance` (src/bees/bees.go:214). The result pair is (global state
when control leaves the function, normal result or propagating panic): on an
unknown class the function panics before any mutation, so the state component
is the input state unchanged. -/
def NewBeeInstance (s : BeesState) (bee : BeeInstance) : BeesState × Except String Bee :=
  match GetFactory s bee.Class with
  | none => (s, Except.error ("Unknown bee-class in config file: " ++ bee.Class))
  | some factory =>
    let mod := factory.New bee.Name bee.Description bee.Options
    (RegisterBee s mod, Except.ok mod)

/-- `StartBee` (src/bees/bees.go:232): instantiate, `Start()`, then
`go startBee(mod, 0)`. The supervision goroutine is modelled by its eventual
effect (run to completion), and the pointer aliasing between the registry and
the supervised worker by writing the final worker back under its name. -/
def StartBee (runOk : Nat → Bool) (s : BeesState) (bee : BeeInstance) :
    BeesState × Except String SuperviseResult :=
  match NewBeeInstance s bee with
  | (s1, Except.error e) => (s1, Except.error e)
  | (s1, Except.ok b) =>
    let r := startBee runOk (beeStart b) 0
    ({ s1 with bees := mapInsert s1.bees r.bee.BeeName r.bee }, Except.ok r)

/-- `StopBees` (src/bees/bees.go:254): stop every registered bee, close the
event channel, replace the bees map by a fresh empty one. The second
component of the result is the previously registered worker objects as they
stand after their `Stop()` call (they survive the registry reset through the
pointers other code may hold). -/
def StopBees (s : BeesState) : BeesState × List Bee :=
  let stopped := s.bees.map fun p => beeStop p.2
  ({ s with bees := [], eventsOpen := false }, stopped)

/-- The worker as it stands when `RestartBee` reaches its `go` statement on
the non-panicking path (src/bees/bees.go:264, lines before `go`): `Stop()`, a
new stop-signal channel of generation `c`, `WaitGroup().Add(1)` on the
existing handle, `Start()`. -/
def restartPrep (bee : Bee) (c : Nat) : Bee :=
  beeStart (wgAdd (beeSetSigChan (beeStop bee) c)).1

/-- `RestartBee` (src/bees/bees.go:264): `Stop()`, fresh stop channel,
`WaitGroup().Add(1)`, `Start()`, then `go startBee(mod, 0)` (the goroutine
modelled by its eventual effect). There is no recover here: when `Add(1)`
panics (previous counter at -2 or below) the panic propagates, `Start()` is
never called and supervision is not relaunched; the error carries the worker
as the panic leaves it (counter already incremented, still stopped) and the
panic message. -/
def RestartBee (runOk : Nat → Bool) (c : Nat) (bee : Bee) :
    Except (Bee × String) SuperviseResult :=
  match wgAdd (beeSetSigChan (beeStop bee) c) with
  | (b3, some e) => Except.error (b3, e)
  | (b3, none) => Except.ok (startBee runOk (beeStart b3) 0)

/-- Modelled from the spec (section 4.3, `restartOne`): the spec words say the
worker is issued "a fresh stop signal and a fresh completion handle" — a
newly created WaitGroup object (new generation, counter armed once, call
totals starting over), then started and supervised from fatal count 0.
`Add(1)` on a fresh zero counter cannot panic, so the spec-worded restart
always proceeds to start and supervise. Kept for comparison with
`RestartBee`, which is translated from the source. -/
def RestartBeeSpecFresh (runOk : Nat → Bool) (c : Nat) (bee : Bee) :
    Except (Bee × String) SuperviseResult :=
  Except.ok (startBee runOk
    (beeStart { beeStop bee with
                  SigChan := c, wgGen := bee.wgGen + 1,
                  wgCount := 1, wgAdds := 1, wgDones := 0 }) 0)

/-- `NewBee` (src/bees/bees.go:282): fresh bee with a fresh stop channel and a
fresh completion handle, which is incremented once. `Add(1)` here takes the
fresh counter from 0 to 1, so its panic branch is empty. -/
def NewBee (name factoryName description : String) (options : List String) : Bee :=
  (wgAdd { BeeName := name, BeeNamespace := factoryName,
           BeeDescription := description, BeeOptions := options,
           Running := false, SigChan := 0, wgGen := 0,
           wgCount := 0, wgAdds := 0, wgDones := 0, lastEvent := 0 }).1

/-- The body of the per-event goroutine launched by `handleEvents`
(src/bees/bees.go:137): run `execChains` under a deferred `recover`. The
result is (what escapes the goroutine, the log lines it printed): a panic of
`execChains` is recovered and logged, so the escaping outcome is always
normal. -/
def chainWorker (execChains : Event → Except String Unit) (event : Event) :
    Except String Unit × List String :=
  match execChains event with
  | Except.ok _ => (Except.ok (), [])
  | Except.error e => (Except.ok (), ["Fatal chain event: " ++ e])

/-- How the dispatcher loop of `handleEvents` ends: `finished` when the
channel is closed (src/bees/bees.go:122), `crashed` when the loop body
panics with no recover around it — which terminates the dispatcher
goroutine. Both record the state at that moment and the outcomes of the
chain goroutines launched for the events that were handled. -/
inductive LoopResult
  | finished (s : BeesState) (tasks : List (Except String Unit × List String))
  | crashed (s : BeesState) (tasks : List (Except String Unit × List String))

/-- The dispatcher state when the loop ended. -/
def loopState : LoopResult → BeesState
  | LoopResult.finished s _ => s
  | LoopResult.crashed s _ => s

/-- Whether the loop was halted by a panic rather than by channel close. -/
def loopHalted : LoopResult → Bool
  | LoopResult.finished _ _ => false
  | LoopResult.crashed _ _ => true

/-- The chain-goroutine outcomes of the events the loop handled. -/
def loopTasks : LoopResult → List (Except String Unit × List String)
  | LoopResult.finished _ t => t
  | LoopResult.crashed _ t => t

/-- `handleEvents` (src/bees/bees.go:119). The channel is modelled by the
list of events received before it is closed. For each event the loop does
`bee := GetBee(event.Bee)` and then `(*bee).LogEvent()`: when the lookup
missed, `bee` is `nil` and the dereference panics — there is no recover in
the loop, so the dispatcher crashes. Otherwise the event is logged on the
bee and an isolated chain goroutine is launched. -/
def handleEvents (execChains : Event → Except String Unit) :
    BeesState → List Event → LoopResult
  | s, [] => LoopResult.finished s []
  | s, event :: rest =>
    match GetBee s event.Bee with
    | none => LoopResult.crashed s []
    | some bee =>
      let s1 := { s with bees := mapInsert s.bees event.Bee (beeLogEvent bee) }
      let t := chainWorker execChains event
      match handleEvents execChains s1 rest with
      | LoopResult.finished s2 ts => LoopResult.finished s2 (t :: ts)
      | LoopResult.crashed s2 ts => LoopResult.crashed s2 (t :: ts)

/-- Registering a batch of bees one after another (as `StartBees` does
through `StartBee`, restricted to the registration effect). -/
def registerAll (s : BeesState) (bs : List Bee) : BeesState :=
  bs.foldl RegisterBee s

/-- A state with nothing registered and the event channel open. -/
def emptyState : BeesState := ⟨[], [], [], true⟩

/-- A demo factory whose workers are plain base bees of namespace "demo". -/
def factoryDemo : BeeFactoryInterface :=
  ⟨fun name description options => NewBee name "demo" description options⟩

/-- A state with the demo factory registered and no bees. -/
def stateWithFactory : BeesState := ⟨[], [("demo", factoryDemo)], [], true⟩

/-- A descriptor of the known class "demo". -/
def instDemo : BeeInstance := ⟨"beeA", "demo", "a demo bee", []⟩

/-- A descriptor whose class has no registered factory. -/
def instUnknown : BeeInstance := ⟨"beeU", "nosuchclass", "a bee of unknown class", []⟩

/-- A bee as `NewBee` creates it. -/
def beeDemo : Bee := NewBee "beeB" "demo" "a registered bee" []

/-- A second bee with a distinct name. -/
def beeOther : Bee := NewBee "beeC" "demo" "another bee" []

/-- A bee reusing the name of `beeDemo`. -/
def beeClone : Bee := NewBee "beeB" "demo" "a replacement bee" []

/-- A state with `beeDemo` registered and no factories. -/
def stateWithBee : BeesState := ⟨[("beeB", beeDemo)], [], ["chain1"], true⟩

/-- An event produced by the registered bee. -/
def eventKnown : Event := ⟨"beeB", "fired", []⟩

/-- An event naming a producer that is not in the registry. -/
def eventUnknown : Event := ⟨"ghost", "fired", []⟩

/-- The worker object left behind by a supervision run in which every attempt
panicked: its handle was incremented once (at creation) and marked done three
times, so its counter stands at -2. -/
def beeCrashed : Bee :=
  (startBee (fun _ => false) (NewBee "beeX" "demo" "a crashy bee" []) 0).bee

/-! ### Association-list lemmas -/

theorem mapKeys_nil {α : Type} : mapKeys ([] : List (String × α)) = [] := rfl

theorem mapKeys_cons {α : Type} (p : String × α) (rest : List (String × α)) :
    mapKeys (p :: rest) = p.1 :: mapKeys rest := rfl

theorem mapLookup_not_mem {α : Type} (m : List (String × α)) (k : String)
    (h : k ∉ mapKeys m) : mapLookup m k = none := by
  induction m with
  | nil => rfl
  | cons p rest ih =>
    rw [mapKeys_cons] at h
    have h1 : p.1 ≠ k := fun hk => h (List.mem_cons.mpr (Or.inl hk.symm))
    have h2 : k ∉ mapKeys rest := fun hk => h (List.mem_cons.mpr (Or.inr hk))
    simp only [mapLookup, if_neg h1]
    exact ih h2

theorem mapLookup_isSome_iff {α : Type} (m : List (String × α)) (k : String) :
    (mapLookup m k).isSome = true ↔ k ∈ mapKeys m := by
  induction m with
  | nil => simp [mapLookup, mapKeys_nil]
  | cons p rest ih =>
    rw [mapKeys_cons]
    by_cases h : p.1 = k
    · simp [mapLookup, h]
    · simp only [mapLookup, if_neg h, List.mem_cons]
      rw [ih]
      have : ¬k = p.1 := fun hk => h hk.symm
      simp [this]

theorem mapLookup_mem_nodup {α : Type} (m : List (String × α)) (k : String) (v : α)
    (hnd : (mapKeys m).Nodup) (hmem : (k, v) ∈ m) : mapLookup m k = some v := by
  induction m with
  | nil => cases hmem
  | cons p rest ih =>
    rw [mapKeys_cons, List.nodup_cons] at hnd
    rcases List.mem_cons.mp hmem with h | h
    · subst h; simp [mapLookup]
    · have hk : p.1 ≠ k := by
        intro he
        exact hnd.1 (he ▸ (List.mem_map.mpr ⟨(k, v), h, rfl⟩))
      simp only [mapLookup, if_neg hk]
      exact ih hnd.2 h

theorem mapInsert_not_mem {α : Type} (m : List (String × α)) (k : String) (v : α)
    (h : k ∉ mapKeys m) : mapInsert m k v = m ++ [(k, v)] := by
  induction m with
  | nil => rfl
  | cons p rest ih =>
    rw [mapKeys_cons] at h
    have h1 : p.1 ≠ k := fun hk => h (List.mem_cons.mpr (Or.inl hk.symm))
    have h2 : k ∉ mapKeys rest := fun hk => h (List.mem_cons.mpr (Or.inr hk))
    simp only [mapInsert, if_neg h1, List.cons_append, List.cons.injEq, true_and]
    exact ih h2

theorem mapKeys_insert_mem {α : Type} (m : List (String × α)) (k : String) (v : α)
    (h : k ∈ mapKeys m) : mapKeys (mapInsert m k v) = mapKeys m := by
  induction m with
  | nil => cases h
  | cons p rest ih =>
    by_cases hk : p.1 = k
    · simp only [mapInsert, if_pos hk, mapKeys_cons]
      rw [hk]
    · have hr : k ∈ mapKeys rest := by
        rw [mapKeys_cons] at h
        rcases List.mem_cons.mp h with h1 | h1
        · exact absurd h1.symm hk
        · exact h1
      simp only [mapInsert, if_neg hk, mapKeys_cons]
      rw [ih hr]

theorem mapInsert_length_mem {α : Type} (m : List (String × α)) (k : String) (v : α)
    (h : k ∈ mapKeys m) : (mapInsert m k v).length = m.length := by
  induction m with
  | nil => cases h
  | cons p rest ih =>
    by_cases hk : p.1 = k
    · simp [mapInsert, hk]
    · have hr : k ∈ mapKeys rest := by
        rw [mapKeys_cons] at h
        rcases List.mem_cons.mp h with h1 | h1
        · exact absurd h1.symm hk
        · exact h1
      simp [mapInsert, hk, ih hr]

theorem mapLookup_insert_self {α : Type} (m : List (String × α)) (k : String) (v : α) :
    mapLookup (mapInsert m k v) k = some v := by
  induction m with
  | nil => simp [mapInsert, mapLookup]
  | cons p rest ih =>
    by_cases hk : p.1 = k
    · simp [mapInsert, hk, mapLookup]
    · simp [mapInsert, hk, mapLookup, ih]

/-! ### Supervision lemmas -/

theorem startBeeAux_fields (runOk : Nat → Bool) :
    ∀ (remaining : Nat) (b : Bee) (fatals : Nat),
      (startBeeAux runOk b fatals remaining).bee.wgAdds = b.wgAdds ∧
      (startBeeAux runOk b fatals remaining).bee.wgGen = b.wgGen ∧
      (startBeeAux runOk b fatals remaining).bee.SigChan = b.SigChan ∧
      (startBeeAux runOk b fatals remaining).bee.BeeName = b.BeeName ∧
      (startBeeAux runOk b fatals remaining).bee.wgDones
        = b.wgDones + (startBeeAux runOk b fatals remaining).attempts := by
  intro remaining
  induction remaining with
  | zero => intro b fatals; simp [startBeeAux]
  | succ n ih =>
    intro b fatals
    by_cases h : runOk fatals
    · simp [startBeeAux, h, wgDone]
    · have := ih (wgDone b) (fatals + 1)
      simp only [startBeeAux, if_neg h]
      refine ⟨this.1, this.2.1, this.2.2.1, this.2.2.2.1, ?_⟩
      have hd := this.2.2.2.2
      simp only [wgDone] at this hd ⊢
      omega

theorem startBeeAux_attempts_pos (runOk : Nat → Bool) (b : Bee) (fatals n : Nat) :
    1 ≤ (startBeeAux runOk b fatals (n + 1)).attempts := by
  by_cases h : runOk fatals
  · simp [startBeeAux, h]
  · simp [startBeeAux, h]

theorem startBeeAux_allFail (runOk : Nat → Bool) (hf : ∀ n, runOk n = false) :
    ∀ (remaining : Nat) (b : Bee) (fatals : Nat),
      (startBeeAux runOk b fatals remaining).attempts = remaining := by
  intro remaining
  induction remaining with
  | zero => intro b fatals; rfl
  | succ n ih =>
    intro b fatals
    simp [startBeeAux, hf fatals, ih (wgDone b) (fatals + 1)]

/-! ### Registration lemmas -/

theorem registerAll_grow :
    ∀ (bs : List Bee) (s : BeesState),
      (bs.map Bee.BeeName).Nodup →
      (∀ b ∈ bs, b.BeeName ∉ mapKeys s.bees) →
      (registerAll s bs).bees.length = s.bees.length + bs.length := by
  intro bs
  induction bs with
  | nil => intro s _ _; simp [registerAll]
  | cons b rest ih =>
    intro s hnd hdis
    have hb : b.BeeName ∉ mapKeys s.bees := hdis b (List.mem_cons_self b rest)
    have hstep : (RegisterBee s b).bees = s.bees ++ [(b.BeeName, b)] := by
      simp [RegisterBee, mapInsert_not_mem _ _ _ hb]
    have hkeys : mapKeys (RegisterBee s b).bees = mapKeys s.bees ++ [b.BeeName] := by
      rw [hstep]; simp [mapKeys]
    rw [List.map_cons, List.nodup_cons] at hnd
    have hdis2 : ∀ e ∈ rest, e.BeeName ∉ mapKeys (RegisterBee s b).bees := by
      intro e he hmem
      rw [hkeys] at hmem
      rcases List.mem_append.mp hmem with h1 | h1
      · exact hdis e (List.mem_cons_of_mem b he) h1
      · have h2 : e.BeeName = b.BeeName := List.mem_singleton.mp h1
        exact hnd.1 (List.mem_map.mpr ⟨e, he, h2⟩)
    have hrec := ih (RegisterBee s b) hnd.2 hdis2
    have hone : registerAll s (b :: rest) = registerAll (RegisterBee s b) rest := rfl
    have hlen : (RegisterBee s b).bees.length = s.bees.length + 1 := by
      rw [hstep]; simp
    rw [hone, hrec, hlen]
    simp [List.length_cons]
    omega

/-! ### Claim theorems -/

/-- Claim C10: StopBees mutates only the worker map and the shared event
channel: the factory registry (GetBeeFactory and GetBeeFactories results) and
the chain configuration (Chains result) are exactly the same after StopBees
as before it. -/
theorem StopBees_frame (s : BeesState) :
    (StopBees s).1.factories = s.factories ∧
    Chains (StopBees s).1 = Chains s ∧
    (∀ idf, GetBeeFactory (StopBees s).1 idf = GetBeeFactory s idf) ∧
    GetBeeFactories (StopBees s).1 = GetBeeFactories s :=
  ⟨rfl, rfl, fun _ => rfl, rfl⟩

/-- Claim C6: after StopBees, Stop has been called on every worker that was
registered at the time of the call (the surviving worker objects are exactly
the previously registered ones, each with its running flag cleared), the
shared event channel is closed, and the registry is empty: GetBees is the
empty sequence and every lookup misses. -/
theorem StopBees_stops_closes_clears (s : BeesState) :
    (StopBees s).2.map Bee.BeeName = (GetBees s).map Bee.BeeName ∧
    (∀ b ∈ (StopBees s).2, b.Running = false) ∧
    (StopBees s).1.eventsOpen = false ∧
    GetBees (StopBees s).1 = [] ∧
    (∀ idf, GetBee (StopBees s).1 idf = none) := by
  refine ⟨?_, ?_, rfl, rfl, fun _ => rfl⟩
  · simp only [StopBees, GetBees, List.map_map]
    rfl
  · intro b hb
    simp only [StopBees, List.mem_map] at hb
    obtain ⟨p, _, hp⟩ := hb
    rw [← hp]
    rfl

/-- Claim C6 witness: the guarantees of StopBees evaluated on a state with
one registered bee. -/
theorem StopBees_stops_closes_clears_witness :
    (StopBees stateWithBee).2.map Bee.BeeName = (GetBees stateWithBee).map Bee.BeeName ∧
    (∀ b ∈ (StopBees stateWithBee).2, b.Running = false) ∧
    (StopBees stateWithBee).1.eventsOpen = false ∧
    GetBees (StopBees stateWithBee).1 = [] ∧
    (∀ idf, GetBee (StopBees stateWithBee).1 idf = none) :=
  StopBees_stops_closes_clears stateWithBee

/-- Claim C9: a lookup of an identifier absent from the worker map
(respectively the factory map) returns the empty result, never an error; a
lookup of a present identifier returns the stored instance. -/
theorem lookup_miss_empty_hit_stored :
    (∀ (s : BeesState) (idf : String), idf ∉ mapKeys s.bees → GetBee s idf = none) ∧
    (∀ (s : BeesState) (idf : String) (b : Bee),
        (mapKeys s.bees).Nodup → (idf, b) ∈ s.bees → GetBee s idf = some b) ∧
    (∀ (s : BeesState) (idf : String),
        idf ∉ mapKeys s.factories → GetBeeFactory s idf = none) ∧
    (∀ (s : BeesState) (idf : String) (f : BeeFactoryInterface),
        (mapKeys s.factories).Nodup → (idf, f) ∈ s.factories → GetBeeFactory s idf = some f) :=
  ⟨fun _ _ h => mapLookup_not_mem _ _ h,
   fun _ _ _ hnd hm => mapLookup_mem_nodup _ _ _ hnd hm,
   fun _ _ h => mapLookup_not_mem _ _ h,
   fun _ _ _ hnd hm => mapLookup_mem_nodup _ _ _ hnd hm⟩

/-- Claim C9 witness: lookup misses and hits evaluated on concrete
registries. -/
theorem lookup_miss_empty_hit_stored_witness :
    GetBee stateWithBee "nosuchbee" = none ∧
    GetBee stateWithBee "beeB" = some beeDemo ∧
    GetBeeFactory stateWithFactory "nosuchclass" = none ∧
    GetBeeFactory stateWithFactory "demo" = some factoryDemo :=
  ⟨lookup_miss_empty_hit_stored.1 stateWithBee "nosuchbee" (by decide),
   lookup_miss_empty_hit_stored.2.1 stateWithBee "beeB" beeDemo (by decide)
     (show ("beeB", beeDemo) ∈ [("beeB", beeDemo)] from List.mem_cons_self _ _),
   lookup_miss_empty_hit_stored.2.2.1 stateWithFactory "nosuchclass" (by decide),
   lookup_miss_empty_hit_stored.2.2.2 stateWithFactory "demo" factoryDemo (by decide)
     (show ("demo", factoryDemo) ∈ [("demo", factoryDemo)] from List.mem_cons_self _ _)⟩

/-- Claim C7: registering N workers with pairwise-distinct identifiers from an
empty registry yields a worker list of size N; registering a worker whose
identifier is already present keeps the size unchanged and silently replaces
the prior entry (RegisterBee returns nothing and raises no duplicate error). -/
theorem RegisterBee_distinct_and_duplicate :
    (∀ bs : List Bee, (bs.map Bee.BeeName).Nodup →
        (GetBees (registerAll emptyState bs)).length = bs.length) ∧
    (∀ (s : BeesState) (b : Bee), b.BeeName ∈ mapKeys s.bees →
        (GetBees (RegisterBee s b)).length = (GetBees s).length ∧
        GetBee (RegisterBee s b) b.BeeName = some b) := by
  constructor
  · intro bs hnd
    have h := registerAll_grow bs emptyState hnd
      (by intro b _ hmem; simp [emptyState, mapKeys_nil] at hmem)
    simpa [GetBees, emptyState] using h
  · intro s b hmem
    constructor
    · simp [GetBees, RegisterBee, mapInsert_length_mem _ _ _ hmem]
    · exact mapLookup_insert_self _ _ _

/-- Claim C7 witness: two distinct registrations give size 2; a duplicate
registration keeps size 1 and replaces the entry. -/
theorem RegisterBee_distinct_and_duplicate_witness :
    (GetBees (registerAll emptyState [beeDemo, beeOther])).length = 2 ∧
    (GetBees (RegisterBee stateWithBee beeClone)).length = (GetBees stateWithBee).length ∧
    GetBee (RegisterBee stateWithBee beeClone) beeClone.BeeName = some beeClone :=
  ⟨RegisterBee_distinct_and_duplicate.1 [beeDemo, beeOther] (by decide),
   (RegisterBee_distinct_and_duplicate.2 stateWithBee beeClone (by decide)).1,
   (RegisterBee_distinct_and_duplicate.2 stateWithBee beeClone (by decide)).2⟩

/-- Claim C3: instantiating a descriptor whose class has no registered factory
fails fatally (the propagating panic of NewBeeInstance), constructs no worker
and leaves the registry unchanged; for a known class the worker is built by
that factory, registered, and returned normally, so the two cases are
observably distinct. -/
theorem NewBeeInstance_unknown_fatal_known_registers (s : BeesState) (d : BeeInstance) :
    (GetFactory s d.Class = none →
      NewBeeInstance s d
        = (s, Except.error ("Unknown bee-class in config file: " ++ d.Class))) ∧
    (∀ f : BeeFactoryInterface, GetFactory s d.Class = some f →
      NewBeeInstance s d
        = (RegisterBee s (f.New d.Name d.Description d.Options),
           Except.ok (f.New d.Name d.Description d.Options)) ∧
      GetBee (NewBeeInstance s d).1 (f.New d.Name d.Description d.Options).BeeName
        = some (f.New d.Name d.Description d.Options)) := by
  constructor
  · intro h
    simp [NewBeeInstance, h]
  · intro f h
    refine ⟨by simp [NewBeeInstance, h], ?_⟩
    simp only [NewBeeInstance, h]
    exact mapLookup_insert_self _ _ _

/-- Claim C3 witness: the fatal unknown-class case and the successful
known-class case evaluated on concrete states. -/
theorem NewBeeInstance_unknown_fatal_known_registers_witness :
    NewBeeInstance stateWithBee instUnknown
      = (stateWithBee,
         Except.error ("Unknown bee-class in config file: " ++ instUnknown.Class)) ∧
    NewBeeInstance stateWithFactory instDemo
      = (RegisterBee stateWithFactory
           (factoryDemo.New instDemo.Name instDemo.Description instDemo.Options),
         Except.ok (factoryDemo.New instDemo.Name instDemo.Description instDemo.Options)) :=
  ⟨(NewBeeInstance_unknown_fatal_known_registers stateWithBee instUnknown).1 rfl,
   ((NewBeeInstance_unknown_fatal_known_registers stateWithFactory instDemo).2
      factoryDemo rfl).1⟩

/-- Claim C1: when every Run attempt panics, the supervised run task makes
exactly 3 attempts and no 4th, the worker stays registered in the worker map,
and the failure is never re-raised: StartBee still returns a normal (ok)
result. -/
theorem startBee_three_attempts_then_abandoned
    (s : BeesState) (d : BeeInstance) (f : BeeFactoryInterface) (runOk : Nat → Bool)
    (hf : GetFactory s d.Class = some f)
    (hfail : ∀ n, runOk n = false) :
    ∃ r : SuperviseResult,
      (StartBee runOk s d).2 = Except.ok r ∧
      r.attempts = 3 ∧
      GetBee (StartBee runOk s d).1 (f.New d.Name d.Description d.Options).BeeName
        = some r.bee := by
  have hinst : NewBeeInstance s d
      = (RegisterBee s (f.New d.Name d.Description d.Options),
         Except.ok (f.New d.Name d.Description d.Options)) := by
    simp [NewBeeInstance, hf]
  refine ⟨startBee runOk (beeStart (f.New d.Name d.Description d.Options)) 0, ?_, ?_, ?_⟩
  · simp [StartBee, hinst]
  · exact startBeeAux_allFail runOk hfail 3 (beeStart (f.New d.Name d.Description d.Options)) 0
  · have hname :
        (startBee runOk (beeStart (f.New d.Name d.Description d.Options)) 0).bee.BeeName
          = (f.New d.Name d.Description d.Options).BeeName :=
      (startBeeAux_fields runOk 3 (beeStart (f.New d.Name d.Description d.Options)) 0).2.2.2.1
    simp only [StartBee, hinst]
    rw [show GetBee
          ({ RegisterBee s (f.New d.Name d.Description d.Options) with
              bees := mapInsert (RegisterBee s (f.New d.Name d.Description d.Options)).bees
                (startBee runOk (beeStart (f.New d.Name d.Description d.Options)) 0).bee.BeeName
                (startBee runOk (beeStart (f.New d.Name d.Description d.Options)) 0).bee })
          (f.New d.Name d.Description d.Options).BeeName
        = mapLookup
            (mapInsert (RegisterBee s (f.New d.Name d.Description d.Options)).bees
              (startBee runOk (beeStart (f.New d.Name d.Description d.Options)) 0).bee.BeeName
              (startBee runOk (beeStart (f.New d.Name d.Description d.Options)) 0).bee)
            (f.New d.Name d.Description d.Options).BeeName from rfl]
    rw [← hname]
    exact mapLookup_insert_self _ _ _

/-- Claim C1 witness: a worker of the demo class whose Run always panics is
abandoned after exactly 3 attempts and stays registered. -/
theorem startBee_three_attempts_then_abandoned_witness :
    ∃ r : SuperviseResult,
      (StartBee (fun _ => false) stateWithFactory instDemo).2 = Except.ok r ∧
      r.attempts = 3 ∧
      GetBee (StartBee (fun _ => false) stateWithFactory instDemo).1
          (factoryDemo.New instDemo.Name instDemo.Description instDemo.Options).BeeName
        = some r.bee :=
  startBee_three_attempts_then_abandoned stateWithFactory instDemo factoryDemo
    (fun _ => false) rfl (fun _ => rfl)

/-- Claim C4: NewBee increments the completion handle exactly once at
creation, every supervision attempt marks it done exactly once (the Done
count equals the attempt count), so when the first Run attempt fails the
handle ends up decremented strictly more times than it was incremented. -/
theorem waitGroup_once_armed_done_per_attempt
    (name factoryName description : String) (options : List String) (runOk : Nat → Bool)
    (hfail : runOk 0 = false) :
    (NewBee name factoryName description options).wgAdds = 1 ∧
    (startBee runOk (NewBee name factoryName description options) 0).bee.wgDones
      = (startBee runOk (NewBee name factoryName description options) 0).attempts ∧
    (startBee runOk (NewBee name factoryName description options) 0).bee.wgAdds
      < (startBee runOk (NewBee name factoryName description options) 0).bee.wgDones := by
  have hfields := startBeeAux_fields runOk 3 (NewBee name factoryName description options) 0
  have hA : (NewBee name factoryName description options).wgAdds = 1 := rfl
  have hD : (NewBee name factoryName description options).wgDones = 0 := rfl
  have hstep :
      (startBeeAux runOk (NewBee name factoryName description options) 0 3).attempts
        = (startBeeAux runOk (wgDone (NewBee name factoryName description options)) 1 2).attempts
            + 1 := by
    simp [startBeeAux, hfail]
  have hpos : 1 ≤ (startBeeAux runOk (wgDone (NewBee name factoryName description options)) 1 2).attempts :=
    startBeeAux_attempts_pos runOk (wgDone (NewBee name factoryName description options)) 1 1
  refine ⟨hA, ?_, ?_⟩
  · have h := hfields.2.2.2.2
    rw [hD] at h
    simpa using h
  · show (startBeeAux runOk (NewBee name factoryName description options) 0 3).bee.wgAdds
        < (startBeeAux runOk (NewBee name factoryName description options) 0 3).bee.wgDones
    rw [hfields.1, hfields.2.2.2.2, hA, hD]
    omega

/-- Claim C4 witness: a bee whose Run always panics has one Add and three
Dones on its completion handle. -/
theorem waitGroup_once_armed_done_per_attempt_witness :
    (NewBee "beeX" "demo" "a crashy bee" []).wgAdds = 1 ∧
    (startBee (fun _ => false) (NewBee "beeX" "demo" "a crashy bee" []) 0).bee.wgDones
      = (startBee (fun _ => false) (NewBee "beeX" "demo" "a crashy bee" []) 0).attempts ∧
    (startBee (fun _ => false) (NewBee "beeX" "demo" "a crashy bee" []) 0).bee.wgAdds
      < (startBee (fun _ => false) (NewBee "beeX" "demo" "a crashy bee" []) 0).bee.wgDones :=
  waitGroup_once_armed_done_per_attempt "beeX" "demo" "a crashy bee" [] (fun _ => false) rfl

/-- On the non-panicking path (re-armed counter non-negative) RestartBee
reaches its `go` statement: the result is the supervision of the prepared
worker from fatal count 0. -/
theorem RestartBee_add_ok (runOk : Nat → Bool) (c : Nat) (b : Bee)
    (h : 0 ≤ b.wgCount + 1) :
    RestartBee runOk c b = Except.ok (startBee runOk (restartPrep b c) 0) := by
  have hn : ¬ (b.wgCount + 1 < 0) := by omega
  simp [RestartBee, wgAdd, restartPrep, beeSetSigChan, beeStop, hn]

/-- On the panicking path (previous counter at -2 or below) RestartBee
propagates the Add panic before Start is ever called. -/
theorem RestartBee_add_panics (runOk : Nat → Bool) (c : Nat) (b : Bee)
    (h : b.wgCount + 1 < 0) :
    RestartBee runOk c b
      = Except.error ((wgAdd (beeSetSigChan (beeStop b) c)).1,
          "sync: negative WaitGroup counter") := by
  simp [RestartBee, wgAdd, beeSetSigChan, beeStop, h]

/-- Claim C5 counterexample: RestartBee does not issue a fresh completion
handle. On the ordinary worker beeDemo (handle counter 1, so Add(1) cannot
panic and both restarts complete), restarting via the source differs from
the spec-worded restart that issues a genuinely fresh handle armed once: the
code keeps the same handle object (generation unchanged) and takes its
counter to 2 rather than 1, a difference observable through a Wait on the
handle. -/
theorem RestartBee_not_fresh_completion_handle :
    RestartBee (fun _ => true) 5 beeDemo
      ≠ RestartBeeSpecFresh (fun _ => true) 5 beeDemo := by
  intro h
  exact absurd (congrArg Except.toOption h) (by decide)

/-- Claim C5 (amended): RestartBee first calls Stop on the worker, then
issues it a fresh stop signal but re-arms its existing completion handle with
Add(1) rather than issuing a fresh handle (the handle object is unchanged;
its counter becomes the previous value plus one, not one). When the re-armed
counter is non-negative the worker is then started and supervision is
relaunched with fatalCount = 0; when the previous counter was -2 or below
(reachable once a worker has been abandoned after repeated failures) the
Add(1) itself panics with no recover in RestartBee, so the worker is never
started and supervision is not relaunched. -/
theorem RestartBee_rearms_existing_handle
    (runOk : Nat → Bool) (c : Nat) (b : Bee) (hfresh : c ≠ b.SigChan) :
    (restartPrep b c).SigChan = c ∧
    (restartPrep b c).SigChan ≠ b.SigChan ∧
    (restartPrep b c).wgGen = b.wgGen ∧
    (restartPrep b c).wgCount = b.wgCount + 1 ∧
    (restartPrep b c).wgAdds = b.wgAdds + 1 ∧
    (0 ≤ b.wgCount + 1 →
      (restartPrep b c).Running = true ∧
      RestartBee runOk c b = Except.ok (startBee runOk (restartPrep b c) 0)) ∧
    (b.wgCount + 1 < 0 →
      RestartBee runOk c b
        = Except.error ((wgAdd (beeSetSigChan (beeStop b) c)).1,
            "sync: negative WaitGroup counter") ∧
      ((wgAdd (beeSetSigChan (beeStop b) c)).1).Running = false) :=
  ⟨rfl, hfresh, rfl, rfl, rfl,
   fun h => ⟨rfl, RestartBee_add_ok runOk c b h⟩,
   fun h => ⟨RestartBee_add_panics runOk c b h, rfl⟩⟩

/-- Claim C5 witness: the amended restart behaviour evaluated on the ordinary
worker beeDemo (counter 1: Add succeeds and the worker is restarted) and on
the abandoned worker beeCrashed (counter -2: Add panics and the worker is
never started). -/
theorem RestartBee_rearms_existing_handle_witness :
    (restartPrep beeDemo 5).wgCount = beeDemo.wgCount + 1 ∧
    (restartPrep beeDemo 5).wgGen = beeDemo.wgGen ∧
    RestartBee (fun _ => true) 5 beeDemo
      = Except.ok (startBee (fun _ => true) (restartPrep beeDemo 5) 0) ∧
    RestartBee (fun _ => true) 1 beeCrashed
      = Except.error ((wgAdd (beeSetSigChan (beeStop beeCrashed) 1)).1,
          "sync: negative WaitGroup counter") ∧
    ((wgAdd (beeSetSigChan (beeStop beeCrashed) 1)).1).Running = false :=
  ⟨(RestartBee_rearms_existing_handle (fun _ => true) 5 beeDemo (by decide)).2.2.2.1,
   (RestartBee_rearms_existing_handle (fun _ => true) 5 beeDemo (by decide)).2.2.1,
   ((RestartBee_rearms_existing_handle (fun _ => true) 5 beeDemo (by decide)).2.2.2.2.2.1
      (by decide)).2,
   ((RestartBee_rearms_existing_handle (fun _ => true) 1 beeCrashed (by decide)).2.2.2.2.2.2
      (by decide)).1,
   ((RestartBee_rearms_existing_handle (fun _ => true) 1 beeCrashed (by decide)).2.2.2.2.2.2
      (by decide)).2⟩

/-- Claim C2 counterexample: an event whose producing-worker identifier is not
in the registry halts the dispatch loop. With one bee registered, the loop
receiving first an event from the unregistered producer "ghost" and then an
event from the registered bee crashes at the first event (the nil-pointer
dereference after the failed lookup) and never handles the second: the claim
that a failure handling a single event is confined to that event is false. -/
theorem handleEvents_unknown_bee_halts_loop :
    handleEvents (fun _ => Except.ok ()) stateWithBee [eventUnknown, eventKnown]
      = LoopResult.crashed stateWithBee [] := rfl

/-- Claim C2 (amended): a failure of the chain executor is confined to the
per-event task, and the dispatcher handles every received event and never
halts — provided every received event names a producer that is present in the
registry; an event whose producer is absent from the registry instead panics
the dispatcher loop itself. -/
theorem handleEvents_registered_events_never_halt
    (execChains : Event → Except String Unit) (evs : List Event) (s : BeesState)
    (hreg : ∀ ev ∈ evs, ev.Bee ∈ mapKeys s.bees) :
    loopHalted (handleEvents execChains s evs) = false ∧
    (loopTasks (handleEvents execChains s evs)).length = evs.length := by
  induction evs generalizing s with
  | nil => exact ⟨rfl, rfl⟩
  | cons ev rest ih =>
    have hmem : ev.Bee ∈ mapKeys s.bees := hreg ev (List.mem_cons_self ev rest)
    have hsome : (mapLookup s.bees ev.Bee).isSome = true :=
      (mapLookup_isSome_iff _ _).mpr hmem
    obtain ⟨bee, hbee⟩ := Option.isSome_iff_exists.mp hsome
    have hget : GetBee s ev.Bee = some bee := hbee
    have hkeys : mapKeys (mapInsert s.bees ev.Bee (beeLogEvent bee)) = mapKeys s.bees :=
      mapKeys_insert_mem _ _ _ hmem
    have hrest : ∀ e ∈ rest,
        e.Bee ∈ mapKeys
          ({ s with bees := mapInsert s.bees ev.Bee (beeLogEvent bee) } : BeesState).bees := by
      intro e he
      show e.Bee ∈ mapKeys (mapInsert s.bees ev.Bee (beeLogEvent bee))
      rw [hkeys]
      exact hreg e (List.mem_cons_of_mem ev he)
    have hih := ih { s with bees := mapInsert s.bees ev.Bee (beeLogEvent bee) } hrest
    simp only [handleEvents, hget]
    cases hrec : handleEvents execChains
        { s with bees := mapInsert s.bees ev.Bee (beeLogEvent bee) } rest with
    | finished s2 ts =>
      rw [hrec] at hih
      simp only [loopHalted, loopTasks] at hih ⊢
      refine ⟨trivial, ?_⟩
      simp [hih.2]
    | crashed s2 ts =>
      rw [hrec] at hih
      simp only [loopHalted] at hih
      exact absurd hih.1 (by simp)

/-- Claim C2 (amended) witness: with the producing bee registered, the loop
survives two events even though the chain executor panics on both. -/
theorem handleEvents_registered_events_never_halt_witness :
    loopHalted (handleEvents (fun _ => Except.error "boom") stateWithBee
        [eventKnown, eventKnown]) = false ∧
    (loopTasks (handleEvents (fun _ => Except.error "boom") stateWithBee
        [eventKnown, eventKnown])).length = 2 :=
  handleEvents_registered_events_never_halt (fun _ => Except.error "boom")
    [eventKnown, eventKnown] stateWithBee (by decide)

/-- Claim C8: a panic of the external chain executor inside the per-event task
is caught at that task boundary (nothing escapes the task) and logged, and
the dispatcher loop is unaffected by it: the loop reaches the same state,
the same termination status and the same number of launched tasks whatever
the chain executor does. -/
theorem chainWorker_never_propagates :
    (∀ (execChains : Event → Except String Unit) (ev : Event),
        (chainWorker execChains ev).1 = Except.ok ()) ∧
    (∀ (execChains : Event → Except String Unit) (ev : Event) (e : String),
        execChains ev = Except.error e →
        (chainWorker execChains ev).2 = ["Fatal chain event: " ++ e]) ∧
    (∀ (execChains execChains2 : Event → Except String Unit)
        (evs : List Event) (s : BeesState),
        loopState (handleEvents execChains s evs)
          = loopState (handleEvents execChains2 s evs) ∧
        loopHalted (handleEvents execChains s evs)
          = loopHalted (handleEvents execChains2 s evs) ∧
        (loopTasks (handleEvents execChains s evs)).length
          = (loopTasks (handleEvents execChains2 s evs)).length) := by
  refine ⟨?_, ?_, ?_⟩
  · intro ex ev
    cases h : ex ev <;> simp [chainWorker, h]
  · intro ex ev e h
    simp [chainWorker, h]
  · intro ex ex2 evs
    induction evs with
    | nil => intro s; exact ⟨rfl, rfl, rfl⟩
    | cons ev rest ih =>
      intro s
      cases hget : GetBee s ev.Bee with
      | none => simp [handleEvents, hget, loopState, loopHalted, loopTasks]
      | some bee =>
        have hih := ih { s with bees := mapInsert s.bees ev.Bee (beeLogEvent bee) }
        simp only [handleEvents, hget]
        cases h1 : handleEvents ex
            { s with bees := mapInsert s.bees ev.Bee (beeLogEvent bee) } rest with
        | finished s2 ts =>
          cases h2 : handleEvents ex2
              { s with bees := mapInsert s.bees ev.Bee (beeLogEvent bee) } rest with
          | finished s3 ts2 =>
            rw [h1, h2] at hih
            simp only [loopState, loopHalted, loopTasks] at hih ⊢
            refine ⟨hih.1, trivial, ?_⟩
            simp [hih.2.2]
          | crashed s3 ts2 =>
            rw [h1, h2] at hih
            simp only [loopHalted] at hih
            exact absurd hih.2.1 (by simp)
        | crashed s2 ts =>
          cases h2 : handleEvents ex2
              { s with bees := mapInsert s.bees ev.Bee (beeLogEvent bee) } rest with
          | finished s3 ts2 =>
            rw [h1, h2] at hih
            simp only [loopHalted] at hih
            exact absurd hih.2.1 (by simp)
          | crashed s3 ts2 =>
            rw [h1, h2] at hih
            simp only [loopState, loopHalted, loopTasks] at hih ⊢
            refine ⟨hih.1, trivial, ?_⟩
            simp [hih.2.2]

/-- Claim C8 witness: a panicking chain executor is caught and logged at the
task boundary, and the dispatcher reaches the same state as with a succeeding
executor. -/
theorem chainWorker_never_propagates_witness :
    (chainWorker (fun _ => Except.error "boom") eventKnown).1 = Except.ok () ∧
    (chainWorker (fun _ => Except.error "boom") eventKnown).2
      = ["Fatal chain event: " ++ "boom"] ∧
    loopState (handleEvents (fun _ => Except.error "boom") stateWithBee [eventKnown])
      = loopState (handleEvents (fun _ => Except.ok ()) stateWithBee [eventKnown]) :=
  ⟨chainWorker_never_propagates.1 (fun _ => Except.error "boom") eventKnown,
   chainWorker_never_propagates.2.1 (fun _ => Except.error "boom") eventKnown "boom" rfl,
   (chainWorker_never_propagates.2.2 (fun _ => Except.error "boom")
      (fun _ => Except.ok ()) [eventKnown] stateWithBee).1⟩

end Beehive
